import Mathlib

/-!
Verification of the NSE market-prediction core (nse-analysis) against its
natural-language specification.  The Python sources are shallowly embedded:
pandas frames become lists of rows/columns, NaN entries become `Option`/a
dedicated `PVal` type, machine floats become `ℚ` (the only irrational
operation, the standard deviation's square root, is abstracted by a function
argument constrained exactly by the property the code relies on).
-/

namespace NSE

/-- Embedding of `MLModelTrainer.create_labels` (trainer.py, lines 30-49):
for `i` in `range(len(data) - 1)`, append `1` if `close[i+1] > close[i]`
else `0`. -/
def create_labels (close : List ℚ) : List ℕ :=
  (List.range (close.length - 1)).map (fun i =>
    if close.getD i 0 < close.getD (i + 1) 0 then 1 else 0)

/-- The slice of a training frame that `MLModelTrainer.prepare_data` reads:
the `close` column (used by `create_labels`) and the non-OHLCV feature
columns row by row, a `none` entry standing for a NaN produced upstream. -/
structure TrainFrame where
  closes : List ℚ
  featRows : List (List (Option ℚ))

/-- A row survives `DataFrame.dropna` iff no selected entry is NaN. -/
def rowNoNan (r : List (Option ℚ)) : Bool :=
  r.all (fun v => v.isSome)

/-- Embedding of the alignment steps of `MLModelTrainer.prepare_data`
(trainer.py, lines 62-78): `X = data[feature_cols].dropna()`,
`y = create_labels(data)`, then `if len(X) > len(y): X = X[:-1]` and
`if len(y) > len(X): y = y[:len(X)]`. -/
def prepare_align (tf : TrainFrame) : List (List (Option ℚ)) × List ℕ :=
  let X := tf.featRows.filter rowNoNan
  let y := create_labels tf.closes
  let X1 := if y.length < X.length then X.dropLast else X
  let y1 := if X1.length < y.length then y.take X1.length else y
  (X1, y1)

/-- Column mean over a list of rows, as `StandardScaler.fit` records it.
In `prepare_data` the scaler is fitted by `self.scaler.fit_transform(X)` on
the whole aligned matrix `X`, before `train_test_split` runs (trainer.py,
lines 82-92), so the fitted mean is the mean over every aligned row. -/
def col_mean (rows : List (List (Option ℚ))) (j : ℕ) : ℚ :=
  (rows.map (fun r => (r.getD j none).getD 0)).sum / rows.length

/-- The per-feature mean the scaler ends up with after `prepare_data`. -/
def scaler_mean_after_prepare (tf : TrainFrame) (j : ℕ) : ℚ :=
  col_mean (prepare_align tf).1 j

/-- The feature rows of the 10-row single-feature probe table: value `i` at
row `i`. -/
def c1_rows : List (List (Option ℚ)) :=
  [[some 0], [some 1], [some 2], [some 3], [some 4],
   [some 5], [some 6], [some 7], [some 8], [some 9]]

/-- A 10-row single-feature frame: closes 1..10, feature value `i` at row
`i`.  After alignment `X` keeps rows 0..8 and the scaler mean is their
average. -/
def c1_frame : TrainFrame :=
  { closes := [1, 2, 3, 4, 5, 6, 7, 8, 9, 10]
    featRows := c1_rows }

/-- `c1_frame` with the single feature of row `k` perturbed by `+9`. -/
def c1_frame_perturbed (k : ℕ) : TrainFrame :=
  { closes := [1, 2, 3, 4, 5, 6, 7, 8, 9, 10]
    featRows := c1_rows.set k [some ((k : ℚ) + 9)] }

/-- C1: `prepare_data` fits the z-score scaler BEFORE the train/test split,
on the whole aligned matrix, so perturbing any single aligned row — in
particular every row that `train_test_split` later sends to the test split —
changes the fitted mean.  This contradicts the claim that a test-split-only
perturbation leaves the scaler parameters unchanged. -/
theorem scaler_fit_uses_all_rows :
    ∀ k < 9, scaler_mean_after_prepare (c1_frame_perturbed k) 0 ≠
      scaler_mean_after_prepare c1_frame 0 := by
  intro k hk
  interval_cases k <;>
    norm_num [scaler_mean_after_prepare, col_mean, prepare_align, create_labels,
      rowNoNan, c1_frame, c1_frame_perturbed, c1_rows]

/-- Witness: the perturbation at row 3 changes the fitted scaler mean. -/
theorem scaler_fit_uses_all_rows_witness :
    scaler_mean_after_prepare (c1_frame_perturbed 3) 0 ≠
      scaler_mean_after_prepare c1_frame 0 :=
  scaler_fit_uses_all_rows 3 (by decide)

/-- C5: `create_labels` on a table of length `n ≥ 1` yields exactly `n - 1`
labels, and label `i` is `1` iff `close[i+1] > close[i]`, else `0`. -/
theorem create_labels_spec (close : List ℚ) (h : 1 ≤ close.length) :
    (create_labels close).length = close.length - 1 ∧
    ∀ i < close.length - 1,
      ((create_labels close).getD i 0 = 1 ↔
        close.getD i 0 < close.getD (i + 1) 0) ∧
      (¬ close.getD i 0 < close.getD (i + 1) 0 →
        (create_labels close).getD i 0 = 0) := by
  constructor
  · simp [create_labels]
  · intro i hi
    have hget : (create_labels close).getD i 0 =
        if close.getD i 0 < close.getD (i + 1) 0 then 1 else 0 := by
      unfold create_labels
      rw [List.getD_eq_getElem?_getD, List.getElem?_map, List.getElem?_range hi]
      rfl
    constructor
    · rw [hget]
      split <;> simp_all
    · intro hnot
      rw [hget, if_neg hnot]

/-- Witness for C5 at the concrete table `close = [1, 3, 2]`. -/
theorem create_labels_spec_witness :
    (create_labels [1, 3, 2]).length = 2 ∧
    ∀ i < 2,
      ((create_labels [(1 : ℚ), 3, 2]).getD i 0 = 1 ↔
        ([(1 : ℚ), 3, 2]).getD i 0 < ([(1 : ℚ), 3, 2]).getD (i + 1) 0) ∧
      (¬ ([(1 : ℚ), 3, 2]).getD i 0 < ([(1 : ℚ), 3, 2]).getD (i + 1) 0 →
        (create_labels [(1 : ℚ), 3, 2]).getD i 0 = 0) :=
  create_labels_spec [1, 3, 2] (by decide)

/-- C6: the alignment steps of `prepare_data` leave the feature matrix and
the label vector at the same length, equal to the minimum of their original
lengths, for every input frame (the frame's rows and closes agree in count,
as they are columns of one DataFrame). -/
theorem prepare_align_min (tf : TrainFrame)
    (h : tf.featRows.length = tf.closes.length) :
    (prepare_align tf).1.length = (prepare_align tf).2.length ∧
    (prepare_align tf).1.length =
      min (tf.featRows.filter rowNoNan).length (create_labels tf.closes).length := by
  have hX : (tf.featRows.filter rowNoNan).length ≤ tf.closes.length := by
    calc (tf.featRows.filter rowNoNan).length ≤ tf.featRows.length :=
          List.length_filter_le _ _
      _ = tf.closes.length := h
  have hy : (create_labels tf.closes).length = tf.closes.length - 1 := by
    simp [create_labels]
  unfold prepare_align
  simp only []
  split
  · rename_i hlt
    have hdl : (tf.featRows.filter rowNoNan).dropLast.length =
        (tf.featRows.filter rowNoNan).length - 1 := List.length_dropLast _
    split
    · rename_i hlt2
      constructor
      · rw [List.length_take]
        omega
      · rw [hdl]
        omega
    · constructor
      · omega
      · rw [hdl]
        omega
  · rename_i hnlt
    split
    · rename_i hlt2
      constructor
      · rw [List.length_take]
        omega
      · omega
    · constructor
      · omega
      · omega

/-- Witness for C6: a frame with one NaN row (so `X` starts shorter than the
row count) still ends aligned at the minimum length. -/
theorem prepare_align_min_witness :
    (prepare_align { closes := [1, 2, 3], featRows := [[some 5], [none], [some 7]] }).1.length =
      (prepare_align { closes := [1, 2, 3], featRows := [[some 5], [none], [some 7]] }).2.length ∧
    (prepare_align { closes := [1, 2, 3], featRows := [[some 5], [none], [some 7]] }).1.length =
      min (([[some (5 : ℚ)], [none], [some 7]] : List (List (Option ℚ))).filter rowNoNan).length
        (create_labels [1, 2, 3]).length :=
  prepare_align_min { closes := [1, 2, 3], featRows := [[some 5], [none], [some 7]] } (by decide)

/-! ## PredictionEngine (predictor.py)

The engine owns a single `MLModelTrainer` instance (`self.trainer`); every
`load_model(instrument, filename)` call mutates that one instance and stores
a reference to it in `self.models[instrument]`, so the mapping's values all
alias the same object.  The embedding therefore carries one `trainer` field
plus the set of bound instrument keys.  An artifact store is a map from
filename to the persisted `{model, scaler, feature_columns}` bundle; a
failed `joblib` load leaves the trainer unchanged (the exception is caught
inside `MLModelTrainer.load_model`) while the instrument key is still
bound. -/

/-- A fitted classifier: its `predict` method, and its `predict_proba`
method when exposed (`hasattr`), returning the two class probabilities. -/
structure Classifier where
  predict : List ℚ → ℕ
  proba : Option (List ℚ → ℚ × ℚ)

/-- The parameters a fitted `StandardScaler` holds: `mean_`, `scale_`, and
`feature_names_in_` — the column names of the DataFrame it was fitted on
(`prepare_data` fits via `fit_transform` on the named frame
`data[feature_cols]`, trainer.py lines 68 and 84). -/
structure Scaler where
  mean : List ℚ
  scale : List ℚ
  feature_names : List String

/-- Embedding of `StandardScaler.transform` on a named DataFrame:
since scikit-learn 1.0 a scaler fitted on a named frame first validates the
input frame's column names against `feature_names_in_` (identical names, in
order) and raises `ValueError` on any difference; then the feature count is
checked; then `(x - mean) / scale` componentwise.  Either failure raises,
hence `none`.  (sklearn replaces a zero scale by 1 at fit time, so the
divisor is nonzero on the fitted path.) -/
def Scaler.transform (s : Scaler) (colNames : List String) (xs : List ℚ) :
    Option (List ℚ) :=
  if colNames = s.feature_names then
    if xs.length = s.mean.length then
      some ((xs.zip (s.mean.zip s.scale)).map (fun p => (p.1 - p.2.1) / p.2.2))
    else none
  else none

/-- The state of one `MLModelTrainer` as `PredictionEngine` uses it:
`self.model`, `self.scaler`, `self.feature_columns`. -/
structure Trainer where
  model : Classifier
  scaler : Scaler
  feature_columns : List String

/-- The state of a `PredictionEngine`: the single shared `self.trainer`
instance, and the set of instrument keys of `self.models` (whose values all
reference that shared trainer). -/
structure Engine where
  trainer : Trainer
  models : List String

/-- Embedding of `PredictionEngine.load_model` (predictor.py, lines 19-28):
`self.trainer.load_model(filename)` mutates the shared trainer (on a load
failure the exception is swallowed and the trainer keeps its old state),
then `self.models[instrument] = self.trainer` binds the instrument —
unconditionally — to that shared trainer. -/
def load_model (e : Engine) (store : String → Option Trainer)
    (instrument filename : String) : Engine :=
  { trainer := (store filename).getD e.trainer
    models := e.models.insert instrument }

/-- The feature frame handed to `predict_next_day`: column names, rows
(each a name-to-value map), and the pandas index. -/
structure PFrame where
  cols : List String
  rows : List (String → ℚ)
  index : List ℕ

/-- The OHLCV columns excluded from the feature matrix (predictor.py,
line 53; trainer.py, line 64). -/
def exclude_cols : List String := ["open", "high", "low", "close", "volume"]

/-- The column selection of `predict_next_day` (predictor.py, line 54):
every column of the CALLER's frame that is not OHLCV, in caller order. -/
def feature_cols_of (data : PFrame) : List String :=
  data.cols.filter (fun c => ¬ c ∈ exclude_cols)

/-- The record `predict_next_day` returns (predictor.py, lines 74-82). -/
structure PResult where
  instrument : String
  signal : String
  prediction : ℕ
  confidence : ℚ
  alert_triggered : Bool
  timestamp : ℕ
  features_used : List String
deriving DecidableEq

/-- Embedding of `PredictionEngine.predict_next_day` (predictor.py, lines
30-89): fail when no model is bound for the instrument; take the last row;
select feature columns from the caller's frame; scale with the shared
trainer's scaler (its name/count validation raises on a mismatch, and the
exception is swallowed into `None`); predict; confidence is the max class
probability, or the 0.5 sentinel when `predict_proba` is absent; alert iff
confidence ≥ threshold. -/
def predict_next_day (e : Engine) (data : PFrame) (instrument : String)
    (confidence_threshold : ℚ) : Option PResult :=
  if instrument ∈ e.models then
    match data.rows.getLast? with
    | none => none
    | some last =>
      match e.trainer.scaler.transform (feature_cols_of data)
          ((feature_cols_of data).map last) with
      | none => none
      | some X_scaled =>
        let prediction := e.trainer.model.predict X_scaled
        let confidence : ℚ :=
          match e.trainer.model.proba with
          | some f => max (f X_scaled).1 (f X_scaled).2
          | none => 1 / 2
        some { instrument := instrument
               signal := if prediction = 1 then "BULL" else "BEAR"
               prediction := prediction
               confidence := confidence
               alert_triggered := decide (confidence_threshold ≤ confidence)
               timestamp := data.index.getLast?.getD 0
               features_used := feature_cols_of data }
  else none

/-- Embedding of `PredictionEngine.predict_batch` (predictor.py, lines
91-109): loop over the instrument map, call `predict_next_day`, append the
result only when it is truthy. -/
def predict_batch (e : Engine) (data_dict : List (String × PFrame))
    (confidence_threshold : ℚ) : List PResult :=
  data_dict.foldl (fun acc p =>
    match predict_next_day e p.2 p.1 confidence_threshold with
    | some r => acc ++ [r]
    | none => acc) []

lemma predict_batch_foldl_acc (e : Engine) (dict : List (String × PFrame))
    (θ : ℚ) (acc : List PResult) :
    dict.foldl (fun acc p =>
      match predict_next_day e p.2 p.1 θ with
      | some r => acc ++ [r]
      | none => acc) acc =
    acc ++ dict.filterMap (fun p => predict_next_day e p.2 p.1 θ) := by
  induction dict generalizing acc with
  | nil => simp
  | cons hd tl ih =>
    simp only [List.foldl_cons, List.filterMap_cons]
    cases h : predict_next_day e hd.2 hd.1 θ with
    | none => simp [h, ih]
    | some r => simp [h, ih]

lemma predict_batch_eq_filterMap (e : Engine) (dict : List (String × PFrame))
    (θ : ℚ) :
    predict_batch e dict θ =
      dict.filterMap (fun p => predict_next_day e p.2 p.1 θ) := by
  unfold predict_batch
  simpa using predict_batch_foldl_acc e dict θ []

lemma predict_next_day_threshold_shift (e : Engine) (data : PFrame)
    (instrument : String) (θ : ℚ) :
    predict_next_day e data instrument θ =
      (predict_next_day e data instrument 0).map
        (fun r => { r with alert_triggered := decide (θ ≤ r.confidence) }) := by
  unfold predict_next_day
  by_cases hm : instrument ∈ e.models
  · simp only [if_pos hm]
    cases hL : data.rows.getLast? with
    | none => rfl
    | some last =>
      cases hT : e.trainer.scaler.transform (feature_cols_of data)
          ((feature_cols_of data).map last) with
      | none => simp [hT]
      | some Xs => simp [hT]
  · simp [hm]

/-- The instruments whose returned prediction has the alert flag set. -/
def alerted_instruments (e : Engine) (dict : List (String × PFrame)) (θ : ℚ) :
    List String :=
  (predict_batch e dict θ).filterMap
    (fun r => if r.alert_triggered then some r.instrument else none)

/-- A two-state classifier used by the concrete probes: BULL iff the scaled
feature is negative. -/
def probe_classifier : Classifier :=
  { predict := fun xs => if xs.getD 0 0 < 0 then 1 else 0
    proba := none }

/-- Artifact `m1`: scaler centred at 0 on the single feature `f`. -/
def c2_t1 : Trainer :=
  { model := probe_classifier
    scaler := { mean := [0], scale := [1], feature_names := ["f"] }
    feature_columns := ["f"] }

/-- Artifact `m2`: scaler centred at 10 on the single feature `f`. -/
def c2_t2 : Trainer :=
  { model := probe_classifier
    scaler := { mean := [10], scale := [1], feature_names := ["f"] }
    feature_columns := ["f"] }

/-- An artifact store holding the two distinct artifacts `m1` and `m2`. -/
def c2_store : String → Option Trainer := fun s =>
  if s = "m1" then some c2_t1 else if s = "m2" then some c2_t2 else none

/-- Engine before any load. -/
def c2_engine0 : Engine := { trainer := c2_t1, models := [] }

/-- Engine after `load_model("A", "m1")`. -/
def c2_engine1 : Engine := load_model c2_engine0 c2_store "A" "m1"

/-- Engine after `load_model("A", "m1")` then `load_model("B", "m2")`. -/
def c2_engine2 : Engine := load_model c2_engine1 c2_store "B" "m2"

/-- A one-row frame with the single feature column `f` valued 0. -/
def c2_frame : PFrame :=
  { cols := ["f"], rows := [fun _ => 0], index := [0] }

/-- C2: because every `self.models[instrument]` entry references the one
shared `self.trainer`, loading artifact `m2` for instrument `B` replaces
the artifact instrument `A` predicts with: `A`'s prediction flips from BEAR
(artifact `m1`, loaded for `A`) to BULL (artifact `m2`, loaded for `B`). -/
theorem load_model_shared_trainer_clobbers :
    ((predict_next_day c2_engine1 c2_frame "A" (6 / 10)).map PResult.signal =
      some "BEAR") ∧
    ((predict_next_day c2_engine2 c2_frame "A" (6 / 10)).map PResult.signal =
      some "BULL") := by
  constructor <;>
    simp [predict_next_day, feature_cols_of, exclude_cols, Scaler.transform,
      probe_classifier, c2_engine2, c2_engine1, c2_engine0, load_model, c2_store,
      c2_t1, c2_t2, c2_frame, List.insert]

/-- The artifact of claim C4: feature schema `["f1", "f2"]`, the scaler
fitted on those columns (so it recorded them as `feature_names_in_`). -/
def c4_trainer : Trainer :=
  { model := { predict := fun _ => 1, proba := none }
    scaler := { mean := [0, 0], scale := [1, 1], feature_names := ["f1", "f2"] }
    feature_columns := ["f1", "f2"] }

/-- Engine with the C4 artifact bound for NIFTY50. -/
def c4_engine : Engine := { trainer := c4_trainer, models := ["NIFTY50"] }

/-- A caller frame whose non-OHLCV columns `["g1", "g2"]` disagree with the
artifact schema `["f1", "f2"]`. -/
def c4_frame : PFrame :=
  { cols := ["open", "high", "low", "close", "volume", "g1", "g2"]
    rows := [fun _ => 1]
    index := [3] }

/-- C4, counterexample: `predict_next_day` computes its column selection
from the CALLER's frame (`last_record.columns` minus OHLCV, predictor.py
line 54) and never consults the loaded `trainer.feature_columns`: on a
frame whose non-OHLCV columns are `["g1", "g2"]` against schema
`["f1", "f2"]`, the columns handed to the scaler are the caller's
`["g1", "g2"]`, not the artifact's ordered schema — the scaler's name
validation then rejects them and the call returns `None`. -/
theorem predict_selects_caller_columns_cex :
    feature_cols_of c4_frame = ["g1", "g2"] ∧
    feature_cols_of c4_frame ≠ c4_trainer.feature_columns ∧
    predict_next_day c4_engine c4_frame "NIFTY50" (6 / 10) = none := by
  refine ⟨?_, ?_, ?_⟩ <;>
    simp [predict_next_day, feature_cols_of, exclude_cols, Scaler.transform,
      c4_engine, c4_trainer, c4_frame]

/-- C4, amended: the selection is computed from the caller's frame, not via
the artifact's recorded `feature_columns`; but the artifact's scaler
validates the selected column names against those recorded at fit (which
equal the artifact's schema for every artifact this trainer produces), so
every successful prediction used exactly the artifact's ordered schema, and
every input whose non-OHLCV column list differs from the schema fails with
`None` — the caller's columns are never silently scored. -/
theorem predict_schema_enforced (e : Engine) (data : PFrame)
    (instrument : String) (θ : ℚ)
    (hsc : e.trainer.scaler.feature_names = e.trainer.feature_columns) :
    (∀ r, predict_next_day e data instrument θ = some r →
      r.features_used = e.trainer.feature_columns) ∧
    (feature_cols_of data ≠ e.trainer.feature_columns →
      predict_next_day e data instrument θ = none) := by
  constructor
  · intro r hr
    unfold predict_next_day at hr
    split at hr
    · split at hr
      · exact absurd hr (by simp)
      · split at hr
        · exact absurd hr (by simp)
        · rename_i last hL Xs hT
          have hnames : feature_cols_of data = e.trainer.scaler.feature_names := by
            by_cases hn : feature_cols_of data = e.trainer.scaler.feature_names
            · exact hn
            · unfold Scaler.transform at hT
              rw [if_neg hn] at hT
              exact absurd hT (by simp)
          have hrv := Option.some.inj hr
          rw [← hrv]
          show feature_cols_of data = e.trainer.feature_columns
          rw [hnames, hsc]
    · exact absurd hr (by simp)
  · intro hne
    unfold predict_next_day
    split
    · cases hL : data.rows.getLast? with
      | none => rfl
      | some last =>
        have hT : e.trainer.scaler.transform (feature_cols_of data)
            ((feature_cols_of data).map last) = none := by
          unfold Scaler.transform
          rw [if_neg (by rw [hsc]; exact hne)]
        simp [hT]
    · rfl

/-- Witness for the amended C4 at the concrete schema-mismatch probe. -/
theorem predict_schema_enforced_witness :
    (∀ r, predict_next_day c4_engine c4_frame "NIFTY50" (6 / 10) = some r →
      r.features_used = c4_engine.trainer.feature_columns) ∧
    (feature_cols_of c4_frame ≠ c4_engine.trainer.feature_columns →
      predict_next_day c4_engine c4_frame "NIFTY50" (6 / 10) = none) :=
  predict_schema_enforced c4_engine c4_frame "NIFTY50" (6 / 10) rfl

/-- C8: with the engine, data and bound artifact fixed, a prediction that is
alert-triggered at threshold `t2` is alert-triggered at any `t1 ≤ t2`, and
in a batch the alert-triggered instruments at `t2` are among those at
`t1`. -/
theorem alert_threshold_monotone (e : Engine) (data : PFrame)
    (instrument : String) (dict : List (String × PFrame)) (t1 t2 : ℚ)
    (h : t1 ≤ t2) :
    (∀ r2 ∈ predict_next_day e data instrument t2,
      ∀ r1 ∈ predict_next_day e data instrument t1,
        r2.alert_triggered = true → r1.alert_triggered = true) ∧
    (∀ i ∈ alerted_instruments e dict t2, i ∈ alerted_instruments e dict t1) := by
  constructor
  · intro r2 hr2 r1 hr1 halert
    have h2 := Option.mem_def.mp hr2
    have h1 := Option.mem_def.mp hr1
    rw [predict_next_day_threshold_shift] at h2 h1
    obtain ⟨a2, ha2, hu2⟩ := Option.map_eq_some'.mp h2
    obtain ⟨a1, ha1, hu1⟩ := Option.map_eq_some'.mp h1
    have haa : a2 = a1 := Option.some.inj (ha2.symm.trans ha1)
    subst haa
    subst hu2
    subst hu1
    simp only at halert ⊢
    have ht2 : t2 ≤ a2.confidence := of_decide_eq_true halert
    exact decide_eq_true (le_trans h ht2)
  · intro i hi
    unfold alerted_instruments at hi ⊢
    rw [predict_batch_eq_filterMap] at hi ⊢
    obtain ⟨r, hr, hri⟩ := List.mem_filterMap.mp hi
    obtain ⟨p, hp, hpr⟩ := List.mem_filterMap.mp hr
    rw [predict_next_day_threshold_shift] at hpr
    obtain ⟨a, ha, hua⟩ := Option.map_eq_some'.mp hpr
    have halert : r.alert_triggered = true := by
      by_contra hfalse
      simp [hfalse] at hri
    have hins : r.instrument = i := by
      rw [if_pos halert] at hri
      exact Option.some.inj hri
    have hconf : t2 ≤ a.confidence := by
      have : r.alert_triggered = decide (t2 ≤ a.confidence) := by
        rw [← hua]
      exact of_decide_eq_true (this ▸ halert)
    refine List.mem_filterMap.mpr ?_
    refine ⟨{ a with alert_triggered := decide (t1 ≤ a.confidence) }, ?_, ?_⟩
    · refine List.mem_filterMap.mpr ⟨p, hp, ?_⟩
      rw [predict_next_day_threshold_shift, ha]
      rfl
    · rw [if_pos (decide_eq_true (le_trans h hconf))]
      have : a.instrument = i := by
        rw [← hins, ← hua]
      rw [this]

/-- Witness for C8 at a concrete engine, frame, batch and thresholds
`1/4 ≤ 3/4`. -/
theorem alert_threshold_monotone_witness :
    (∀ r2 ∈ predict_next_day c4_engine c4_frame "NIFTY50" (3 / 4),
      ∀ r1 ∈ predict_next_day c4_engine c4_frame "NIFTY50" (1 / 4),
        r2.alert_triggered = true → r1.alert_triggered = true) ∧
    (∀ i ∈ alerted_instruments c4_engine [("NIFTY50", c4_frame)] (3 / 4),
      i ∈ alerted_instruments c4_engine [("NIFTY50", c4_frame)] (1 / 4)) :=
  alert_threshold_monotone c4_engine c4_frame "NIFTY50" [("NIFTY50", c4_frame)]
    (1 / 4) (3 / 4) (by norm_num)

/-- C9: `predict_batch` is exactly the per-instrument collection of the
successful `predict_next_day` results — a result is returned iff some
instrument's call succeeded with it, so one instrument's failure removes
only that instrument — and an instrument with no bound artifact always
fails, contributing no default result. -/
theorem predict_batch_isolates_failures (e : Engine)
    (dict : List (String × PFrame)) (θ : ℚ) :
    predict_batch e dict θ =
      dict.filterMap (fun p => predict_next_day e p.2 p.1 θ) ∧
    (∀ r, r ∈ predict_batch e dict θ ↔
      ∃ p ∈ dict, predict_next_day e p.2 p.1 θ = some r) ∧
    (∀ p ∈ dict, p.1 ∉ e.models → predict_next_day e p.2 p.1 θ = none) := by
  refine ⟨predict_batch_eq_filterMap e dict θ, ?_, ?_⟩
  · intro r
    rw [predict_batch_eq_filterMap]
    exact List.mem_filterMap
  · intro p _ hnm
    unfold predict_next_day
    rw [if_neg hnm]

/-- Witness for C9: a batch holding one bound and one unbound instrument. -/
theorem predict_batch_isolates_failures_witness :
    predict_batch c4_engine [("NIFTY50", c4_frame), ("BANKNIFTY", c4_frame)] (6 / 10) =
      ([("NIFTY50", c4_frame), ("BANKNIFTY", c4_frame)]).filterMap
        (fun p => predict_next_day c4_engine p.2 p.1 (6 / 10)) ∧
    (∀ r, r ∈ predict_batch c4_engine
        [("NIFTY50", c4_frame), ("BANKNIFTY", c4_frame)] (6 / 10) ↔
      ∃ p ∈ [("NIFTY50", c4_frame), ("BANKNIFTY", c4_frame)],
        predict_next_day c4_engine p.2 p.1 (6 / 10) = some r) ∧
    (∀ p ∈ [("NIFTY50", c4_frame), ("BANKNIFTY", c4_frame)],
      p.1 ∉ c4_engine.models → predict_next_day c4_engine p.2 p.1 (6 / 10) = none) :=
  predict_batch_isolates_failures c4_engine
    [("NIFTY50", c4_frame), ("BANKNIFTY", c4_frame)] (6 / 10)

/-- C10: when the bound classifier exposes two class probabilities that are
non-negative and sum to 1, the reported confidence — their maximum — is at
least 1/2; with the 0.5 sentinel used when no probabilities are exposed,
every successful prediction has confidence ≥ 1/2, so any threshold ≤ 1/2
triggers the alert. -/
theorem confidence_at_least_half (e : Engine) (data : PFrame)
    (instrument : String) (θ : ℚ) (r : PResult)
    (hproba : ∀ f, e.trainer.model.proba = some f →
      ∀ xs, 0 ≤ (f xs).1 ∧ 0 ≤ (f xs).2 ∧ (f xs).1 + (f xs).2 = 1)
    (hr : predict_next_day e data instrument θ = some r) :
    (1 : ℚ) / 2 ≤ r.confidence ∧ (θ ≤ 1 / 2 → r.alert_triggered = true) := by
  unfold predict_next_day at hr
  split at hr
  · split at hr
    · exact absurd hr (by simp)
    · split at hr
      · exact absurd hr (by simp)
      · rename_i last hL Xs hT
        have hrv := Option.some.inj hr
        subst hrv
        have hconf : (1 : ℚ) / 2 ≤
            (match e.trainer.model.proba with
              | some f => max (f Xs).1 (f Xs).2
              | none => 1 / 2) := by
          cases hP : e.trainer.model.proba with
          | none => norm_num
          | some f =>
            obtain ⟨h1, h2, hsum⟩ := hproba f hP Xs
            rw [le_max_iff]
            by_cases hc : (1 : ℚ) / 2 ≤ (f Xs).1
            · exact Or.inl hc
            · refine Or.inr ?_
              linarith
        exact ⟨hconf, fun hθ => decide_eq_true (le_trans hθ hconf)⟩
  · exact absurd hr (by simp)

/-- The artifact of claim C10's witness: probabilities (3/4, 1/4). -/
def c10_trainer : Trainer :=
  { model := { predict := fun _ => 1, proba := some (fun _ => (3 / 4, 1 / 4)) }
    scaler := { mean := [0], scale := [1], feature_names := ["f"] }
    feature_columns := ["f"] }

/-- Engine with the C10 artifact bound for NIFTY50. -/
def c10_engine : Engine := { trainer := c10_trainer, models := ["NIFTY50"] }

/-- A one-row frame with the single feature column `f` valued 2. -/
def c10_frame : PFrame :=
  { cols := ["f"], rows := [fun _ => 2], index := [7] }

/-- The result `predict_next_day` returns on the C10 witness input. -/
def c10_result : PResult :=
  { instrument := "NIFTY50"
    signal := "BULL"
    prediction := 1
    confidence := 3 / 4
    alert_triggered := true
    timestamp := 7
    features_used := ["f"] }

/-- Witness for C10: on the concrete probe, confidence is 3/4 ≥ 1/2 and the
threshold 1/2 triggers the alert. -/
theorem confidence_at_least_half_witness :
    (1 : ℚ) / 2 ≤ c10_result.confidence ∧
    ((1 : ℚ) / 2 ≤ 1 / 2 → c10_result.alert_triggered = true) :=
  confidence_at_least_half c10_engine c10_frame "NIFTY50" (1 / 2) c10_result
    (by
      intro f hf xs
      simp only [c10_engine, c10_trainer, Option.some.injEq] at hf
      subst hf
      norm_num)
    (by
      simp [predict_next_day, feature_cols_of, exclude_cols, Scaler.transform,
        c10_engine, c10_trainer, c10_frame, c10_result]
      norm_num)

/-! ## TechnicalAnalyzer (technical_analyzer.py)

Feature extraction works on float columns whose entries may be NaN (warm-up
rows of an indicator) or infinite (a nonzero float divided by zero);
`DataFrame.dropna` drops exactly the NaN-bearing rows.  Entries are embedded
as `PVal`.  The only irrational operation, the standard deviation inside
`BBANDS`, is abstracted by a `sqrtQ : ℚ → ℚ` argument; every theorem that
depends on it assumes only `sqrtQ q = 0 ↔ q ≤ 0`, the property of the real
square root on the (non-negative) variance that the code relies on. -/

/-- A pandas/numpy float cell: NaN, plus or minus infinity, or a finite
value. -/
inductive PVal where
  | nan : PVal
  | pinf : PVal
  | ninf : PVal
  | num (q : ℚ) : PVal
deriving DecidableEq

/-- Float division as numpy performs it on finite operands: `0/0` is NaN,
`x/0` is a signed infinity, otherwise exact. -/
def pdivQ (a b : ℚ) : PVal :=
  if b = 0 then (if a = 0 then .nan else if 0 < a then .pinf else .ninf)
  else .num (a / b)

/-- Cellwise subtraction of two indicator cells; the cells this embedding
subtracts are NaN (warm-up) or finite, and NaN propagates. -/
def PVal.sub : PVal → PVal → PVal
  | num a, num b => num (a - b)
  | _, _ => nan

/-- Cellwise division of two indicator cells (NaN-or-finite operands): NaN
propagates, finite cells divide like numpy floats. -/
def PVal.div : PVal → PVal → PVal
  | num a, num b => pdivQ a b
  | _, _ => nan

/-- One OHLCV candle. -/
structure Candle where
  ts : ℕ
  open_ : ℚ
  high : ℚ
  low : ℚ
  close : ℚ
  volume : ℚ

/-- The length-`p` rolling window ending at index `i` (meaningful once
`p ≤ i + 1`). -/
def window (xs : List ℚ) (p i : ℕ) : List ℚ :=
  (xs.drop (i + 1 - p)).take p

/-- Arithmetic mean of a list values. -/
def mean (xs : List ℚ) : ℚ := xs.sum / xs.length

/-- Population variance, as TA-Lib's BBANDS standard deviation uses it. -/
def variance (xs : List ℚ) : ℚ :=
  ((xs.map (fun x => (x - mean xs) ^ 2)).sum) / xs.length

/-- Embedding of TA-Lib `SMA(timeperiod = p)`: NaN for the first `p - 1`
indices, then the rolling mean. -/
def smaCol (p : ℕ) (xs : List ℚ) : List PVal :=
  (List.range xs.length).map (fun i =>
    if p ≤ i + 1 then .num (mean (window xs p i)) else .nan)

/-- Per-step gains of a close series (step `j` is the move from index `j`
to `j + 1`). -/
def gains (xs : List ℚ) : List ℚ :=
  (xs.zip xs.tail).map (fun p => max (p.2 - p.1) 0)

/-- Per-step losses of a close series. -/
def losses (xs : List ℚ) : List ℚ :=
  (xs.zip xs.tail).map (fun p => max (p.1 - p.2) 0)

/-- Wilder smoothing of a step series with period `p`: the seed is the mean
of the first `p` steps, then `avg = (avg * (p - 1) + step) / p`.  Entry `k`
corresponds to step index `p - 1 + k`. -/
def wilderAvg (p : ℕ) (g : List ℚ) : List ℚ :=
  (g.drop p).scanl (fun a x => (a * ((p : ℚ) - 1) + x) / p) ((g.take p).sum / p)

/-- The RSI value from smoothed gain and loss averages: TA-Lib outputs 0
when both averages are 0 (guarding the zero denominator). -/
def rsiVal (g l : ℚ) : ℚ := if g + l = 0 then 0 else 100 * g / (g + l)

/-- Embedding of TA-Lib `RSI(timeperiod = p)`: NaN for the first `p`
indices, Wilder-smoothed gain ratio afterwards. -/
def rsiCol (p : ℕ) (xs : List ℚ) : List PVal :=
  (List.range xs.length).map (fun i =>
    if p ≤ i then
      .num (rsiVal ((wilderAvg p (gains xs)).getD (i - p) 0)
                   ((wilderAvg p (losses xs)).getD (i - p) 0))
    else .nan)

/-- Exponential moving average with TA-Lib's SMA seed: entry `k`
corresponds to source index `p - 1 + k`. -/
def emaFrom (p : ℕ) (xs : List ℚ) : List ℚ :=
  (xs.drop p).scanl (fun a x => (a * ((p : ℚ) - 1) + 2 * x) / ((p : ℚ) + 1))
    ((xs.take p).sum / p)

/-- The MACD line (fast EMA 12 minus slow EMA 26): entry `j` corresponds to
close index `25 + j`. -/
def macdLine (xs : List ℚ) : List ℚ :=
  ((emaFrom 12 (xs.drop 14)).zip (emaFrom 26 xs)).map (fun p => p.1 - p.2)

/-- Embedding of the `macd` output column of TA-Lib `MACD(12, 26, 9)`: all
three outputs are NaN before index 33 (lookback 25 + 8). -/
def macdCol (xs : List ℚ) : List PVal :=
  (List.range xs.length).map (fun i =>
    if 33 ≤ i then .num ((macdLine xs).getD (i - 25) 0) else .nan)

/-- Embedding of the `signal` output column of TA-Lib `MACD(12, 26, 9)`:
the 9-period EMA of the MACD line. -/
def macdSignalCol (xs : List ℚ) : List PVal :=
  (List.range xs.length).map (fun i =>
    if 33 ≤ i then .num ((emaFrom 9 (macdLine xs)).getD (i - 33) 0) else .nan)

/-- Embedding of the `histogram` output column of TA-Lib `MACD(12, 26, 9)`. -/
def macdHistCol (xs : List ℚ) : List PVal :=
  (List.range xs.length).map (fun i =>
    if 33 ≤ i then
      .num ((macdLine xs).getD (i - 25) 0 - (emaFrom 9 (macdLine xs)).getD (i - 33) 0)
    else .nan)

/-- Embedding of the upper band of TA-Lib `BBANDS(p, k, k)`: rolling mean
plus `k` standard deviations. -/
def bbUpperCol (sqrtQ : ℚ → ℚ) (p : ℕ) (k : ℚ) (xs : List ℚ) : List PVal :=
  (List.range xs.length).map (fun i =>
    if p ≤ i + 1 then
      .num (mean (window xs p i) + k * sqrtQ (variance (window xs p i)))
    else .nan)

/-- Embedding of the lower band of TA-Lib `BBANDS(p, k, k)`. -/
def bbLowerCol (sqrtQ : ℚ → ℚ) (p : ℕ) (k : ℚ) (xs : List ℚ) : List PVal :=
  (List.range xs.length).map (fun i =>
    if p ≤ i + 1 then
      .num (mean (window xs p i) - k * sqrtQ (variance (window xs p i)))
    else .nan)

/-- Embedding of the `bb_position` column computed at technical_analyzer.py
lines 212-215: the pandas columnwise `(close - lower) / (upper - lower)`,
with NO explicit zero guard — `0/0` becomes NaN, NaN warm-up cells
propagate. -/
def bbPositionCol (sqrtQ : ℚ → ℚ) (p : ℕ) (k : ℚ) (xs : List ℚ) : List PVal :=
  (List.range xs.length).map (fun i =>
    PVal.div
      (PVal.sub (.num (xs.getD i 0)) ((bbLowerCol sqrtQ p k xs).getD i .nan))
      (PVal.sub ((bbUpperCol sqrtQ p k xs).getD i .nan)
        ((bbLowerCol sqrtQ p k xs).getD i .nan)))

/-- Embedding of `calculate_volume_ratio`: volume over its 20-period
rolling mean (NaN during warm-up, numpy division semantics after). -/
def volumeRatioCol (p : ℕ) (vs : List ℚ) : List PVal :=
  (List.range vs.length).map (fun i =>
    if p ≤ i + 1 then pdivQ (vs.getD i 0) (mean (window vs p i)) else .nan)

/-- Embedding of the `hl_ratio` column: `(high - low) / close`. -/
def hlRatioCol (data : List Candle) : List PVal :=
  data.map (fun c => pdivQ (c.high - c.low) c.close)

/-- Embedding of the `co_ratio` column: `(close - open) / open`. -/
def coRatioCol (data : List Candle) : List PVal :=
  data.map (fun c => pdivQ (c.close - c.open_) c.open_)

/-- Embedding of `TechnicalAnalyzer.extract_all_features` before the final
`dropna` (technical_analyzer.py, lines 180-227): start from the OHLCV
columns and append each indicator column only when its length guard admits
it — `calculate_moving_averages` silently skips a period longer than the
data (`continue`), and the other helpers return `None`, so a too-short
input loses the column entirely instead of failing. -/
def extract_all_features (sqrtQ : ℚ → ℚ) (data : List Candle) :
    List (String × List PVal) :=
  let n := data.length
  let closes := data.map Candle.close
  let vols := data.map Candle.volume
  ([("open", data.map (fun c => PVal.num c.open_)),
    ("high", data.map (fun c => PVal.num c.high)),
    ("low", data.map (fun c => PVal.num c.low)),
    ("close", data.map (fun c => PVal.num c.close)),
    ("volume", data.map (fun c => PVal.num c.volume))] : List (String × List PVal))
  ++ (if 20 ≤ n then [("sma_20", smaCol 20 closes)] else [])
  ++ (if 50 ≤ n then [("sma_50", smaCol 50 closes)] else [])
  ++ (if 14 ≤ n then [("rsi", rsiCol 14 closes)] else [])
  ++ (if 26 ≤ n then
        [("macd", macdCol closes), ("macd_signal", macdSignalCol closes),
         ("macd_hist", macdHistCol closes)]
      else [])
  ++ (if 20 ≤ n then
        [("bb_upper", bbUpperCol sqrtQ 20 2 closes),
         ("bb_middle", smaCol 20 closes),
         ("bb_lower", bbLowerCol sqrtQ 20 2 closes),
         ("bb_position", bbPositionCol sqrtQ 20 2 closes)]
      else [])
  ++ (if 20 ≤ n then [("volume_ratio", volumeRatioCol 20 vols)] else [])
  ++ [("hl_ratio", hlRatioCol data), ("co_ratio", coRatioCol data)]

/-- The row indices `features_df.dropna()` keeps: those where no present
column holds a NaN (infinities are NOT dropped by pandas). -/
def kept_indices (cols : List (String × List PVal)) (n : ℕ) : List ℕ :=
  (List.range n).filter (fun i =>
    cols.all (fun c => !(decide (c.2.getD i PVal.nan = PVal.nan))))

/-- The final feature table `extract_all_features` returns: every column
restricted to the rows `dropna` keeps. -/
def extract_features_table (sqrtQ : ℚ → ℚ) (data : List Candle) :
    List (String × List PVal) :=
  (extract_all_features sqrtQ data).map (fun c =>
    (c.1, (kept_indices (extract_all_features sqrtQ data) data.length).map
      (fun i => c.2.getD i PVal.nan)))

/-- A computable stand-in for the square root used by witnesses: it
satisfies the one property the proofs assume, `sqrt_probe q = 0 ↔ q ≤ 0`. -/
def sqrt_probe : ℚ → ℚ := fun q => if q ≤ 0 then 0 else 1

/-- The single candle of the C3 failing input. -/
def c3_candle : Candle :=
  { ts := 0, open_ := 1, high := 2, low := 1, close := 2, volume := 1 }

/-- C3: a single-candle input — far below every indicator warm-up window —
does NOT yield an empty result: every indicator column is silently skipped
(None/`continue`), the always-present `hl_ratio`/`co_ratio` rows carry no
NaN, and `extract_all_features` returns one surviving row that lacks
`sma_50`, `sma_20`, `rsi`, `macd` and every other schema field. -/
theorem short_input_nonempty_partial_row :
    kept_indices (extract_all_features sqrt_probe [c3_candle]) 1 = [0] ∧
    (extract_all_features sqrt_probe [c3_candle]).map Prod.fst =
      ["open", "high", "low", "close", "volume", "hl_ratio", "co_ratio"] := by
  constructor <;> decide

lemma getD_range_map {α : Type} (f : ℕ → α) (n i : ℕ) (d : α) :
    ((List.range n).map f).getD i d = if i < n then f i else d := by
  by_cases h : i < n
  · rw [if_pos h, List.getD_eq_getElem?_getD, List.getElem?_map,
      List.getElem?_range h]
    rfl
  · have hlen : ((List.range n).map f).length ≤ i := by
      simpa using Nat.le_of_not_lt h
    rw [if_neg h, List.getD_eq_getElem?_getD, List.getElem?_eq_none hlen]
    rfl

lemma sum_zero_of_nonneg_mem {l : List ℚ} (hnn : ∀ x ∈ l, 0 ≤ x)
    (hs : l.sum = 0) : ∀ x ∈ l, x = 0 := by
  induction l with
  | nil => simp
  | cons a t ih =>
    have hta : 0 ≤ a := hnn a (by simp)
    have htsum : 0 ≤ t.sum :=
      List.sum_nonneg (fun x hx => hnn x (by simp [hx]))
    have hsum : a + t.sum = 0 := by simpa using hs
    intro x hx
    rcases List.mem_cons.mp hx with h | h
    · rw [h]; linarith
    · exact ih (fun y hy => hnn y (by simp [hy])) (by linarith) x h

lemma variance_nonneg (xs : List ℚ) : 0 ≤ variance xs := by
  unfold variance
  apply div_nonneg
  · apply List.sum_nonneg
    intro x hx
    obtain ⟨y, _, rfl⟩ := List.mem_map.mp hx
    positivity
  · exact Nat.cast_nonneg _

lemma variance_zero_all_mean (xs : List ℚ) (hne : xs ≠ [])
    (hv : variance xs = 0) : ∀ x ∈ xs, x = mean xs := by
  have hlen : ((xs.length : ℚ)) ≠ 0 := by
    have hpos := List.length_pos.mpr hne
    exact_mod_cast hpos.ne'
  have hs : (xs.map (fun x => (x - mean xs) ^ 2)).sum = 0 := by
    unfold variance at hv
    rcases div_eq_zero_iff.mp hv with h | h
    · exact h
    · exact absurd h hlen
  intro x hx
  have hx2 : (x - mean xs) ^ 2 = 0 := by
    refine sum_zero_of_nonneg_mem ?_ hs _ (List.mem_map_of_mem _ hx)
    intro z hz
    obtain ⟨y, _, rfl⟩ := List.mem_map.mp hz
    positivity
  have hx0 : x - mean xs = 0 :=
    (pow_eq_zero_iff (by norm_num : (2 : ℕ) ≠ 0)).mp hx2
  linarith

lemma window_length (xs : List ℚ) (p i : ℕ) (hple : p ≤ i + 1)
    (hi : i < xs.length) : (window xs p i).length = p := by
  unfold window
  rw [List.length_take, List.length_drop]
  omega

lemma getD_mem_window (xs : List ℚ) (p i : ℕ) (hp : 0 < p) (hple : p ≤ i + 1)
    (hi : i < xs.length) : xs.getD i 0 ∈ window xs p i := by
  have hlen := window_length xs p i hple hi
  have hlt : p - 1 < (window xs p i).length := by omega
  have hgets : (window xs p i).get ⟨p - 1, hlt⟩ = xs.getD i 0 := by
    unfold window at hlt ⊢
    rw [List.get_eq_getElem, List.getElem_take, List.getElem_drop,
      List.getD_eq_getElem?_getD, List.getElem?_eq_getElem hi]
    simp only [Option.getD_some]
    congr 1
    omega
  rw [← hgets]
  exact List.get_mem _ _ hlt

lemma bb_cell_degenerate (sqrtQ : ℚ → ℚ) (hs : ∀ q, sqrtQ q = 0 ↔ q ≤ 0)
    (xs : List ℚ) (i : ℕ) (h1 : i < xs.length) (h2 : 20 ≤ i + 1)
    (hsq : sqrtQ (variance (window xs 20 i)) = 0) :
    xs.getD i 0 = mean (window xs 20 i) := by
  have hvar0 : variance (window xs 20 i) = 0 :=
    le_antisymm ((hs _).mp hsq) (variance_nonneg _)
  have hwne : window xs 20 i ≠ [] := by
    have hlen := window_length xs 20 i h2 h1
    intro hemp
    rw [hemp] at hlen
    simp at hlen
  exact variance_zero_all_mean _ hwne hvar0 _
    (getD_mem_window xs 20 i (by norm_num) h2 h1)

/-- C7: at any row where the upper and lower Bollinger bands coincide, the
`bb_position` cell `(close - lower) / (upper - lower)` is `0/0 = NaN` (the
window closes all equal their mean, so the numerator vanishes with the
denominator), `dropna` removes that row from the final feature table, and
no `bb_position` cell is ever an infinity — no returned row carries a
division-by-zero artifact. -/
theorem bb_degenerate_band_nan_and_dropped (sqrtQ : ℚ → ℚ)
    (hs : ∀ q, sqrtQ q = 0 ↔ q ≤ 0) (data : List Candle) (i : ℕ) (u : ℚ)
    (hu : (bbUpperCol sqrtQ 20 2 (data.map Candle.close)).getD i PVal.nan =
      PVal.num u)
    (hl : (bbLowerCol sqrtQ 20 2 (data.map Candle.close)).getD i PVal.nan =
      PVal.num u) :
    (bbPositionCol sqrtQ 20 2 (data.map Candle.close)).getD i PVal.nan =
      PVal.nan ∧
    i ∉ kept_indices (extract_all_features sqrtQ data) data.length ∧
    ∀ j, (bbPositionCol sqrtQ 20 2 (data.map Candle.close)).getD j PVal.nan ≠
        PVal.pinf ∧
      (bbPositionCol sqrtQ 20 2 (data.map Candle.close)).getD j PVal.nan ≠
        PVal.ninf := by
  have hu' := hu
  have hl' := hl
  unfold bbUpperCol at hu'
  unfold bbLowerCol at hl'
  rw [getD_range_map] at hu' hl'
  by_cases h1 : i < (data.map Candle.close).length
  swap
  · rw [if_neg h1] at hu'
    exact absurd hu' (by simp)
  rw [if_pos h1] at hu' hl'
  by_cases h2 : 20 ≤ i + 1
  swap
  · rw [if_neg h2] at hu'
    exact absurd hu' (by simp)
  rw [if_pos h2] at hu' hl'
  have e1 := PVal.num.inj hu'
  have e2 := PVal.num.inj hl'
  have hsq : sqrtQ (variance (window (data.map Candle.close) 20 i)) = 0 := by
    linarith
  have hmean : (data.map Candle.close).getD i 0 =
      mean (window (data.map Candle.close) 20 i) :=
    bb_cell_degenerate sqrtQ hs _ i h1 h2 hsq
  have hueq : u = mean (window (data.map Candle.close) 20 i) := by
    rw [← e1, hsq]
    ring
  have hpos : (bbPositionCol sqrtQ 20 2 (data.map Candle.close)).getD i
      PVal.nan = PVal.nan := by
    unfold bbPositionCol
    rw [getD_range_map, if_pos h1, hu, hl]
    have hnum : (data.map Candle.close).getD i 0 - u = 0 := by
      rw [hmean, hueq]
      ring
    simp only [PVal.sub, PVal.div]
    rw [hnum, sub_self]
    simp [pdivQ]
  refine ⟨hpos, ?_, ?_⟩
  · intro hk
    have hdlen : i < data.length := by
      rw [List.length_map] at h1
      exact h1
    have h20 : 20 ≤ data.length := by omega
    have hmembb : ("bb_position", bbPositionCol sqrtQ 20 2
        (data.map Candle.close)) ∈ extract_all_features sqrtQ data := by
      simp [extract_all_features, h20]
    unfold kept_indices at hk
    obtain ⟨hrange, hall⟩ := List.mem_filter.mp hk
    have hb := List.all_eq_true.mp hall _ hmembb
    simp at hb
    rw [List.getD_eq_getElem?_getD] at hpos
    exact hb hpos
  · intro j
    unfold bbPositionCol
    rw [getD_range_map]
    by_cases hj : j < (data.map Candle.close).length
    swap
    · rw [if_neg hj]
      exact ⟨by simp, by simp⟩
    rw [if_pos hj]
    by_cases hj2 : 20 ≤ j + 1
    swap
    · have hlow : (bbLowerCol sqrtQ 20 2 (data.map Candle.close)).getD j
          PVal.nan = PVal.nan := by
        unfold bbLowerCol
        rw [getD_range_map, if_pos hj, if_neg hj2]
      have hup : (bbUpperCol sqrtQ 20 2 (data.map Candle.close)).getD j
          PVal.nan = PVal.nan := by
        unfold bbUpperCol
        rw [getD_range_map, if_pos hj, if_neg hj2]
      rw [hlow, hup]
      constructor <;> simp [PVal.sub, PVal.div]
    · have hupj : (bbUpperCol sqrtQ 20 2 (data.map Candle.close)).getD j
          PVal.nan = PVal.num (mean (window (data.map Candle.close) 20 j) +
            2 * sqrtQ (variance (window (data.map Candle.close) 20 j))) := by
        unfold bbUpperCol
        rw [getD_range_map, if_pos hj, if_pos hj2]
      have hloj : (bbLowerCol sqrtQ 20 2 (data.map Candle.close)).getD j
          PVal.nan = PVal.num (mean (window (data.map Candle.close) 20 j) -
            2 * sqrtQ (variance (window (data.map Candle.close) 20 j))) := by
        unfold bbLowerCol
        rw [getD_range_map, if_pos hj, if_pos hj2]
      rw [hupj, hloj]
      simp only [PVal.sub]
      by_cases hz : (mean (window (data.map Candle.close) 20 j) +
          2 * sqrtQ (variance (window (data.map Candle.close) 20 j))) -
          (mean (window (data.map Candle.close) 20 j) -
          2 * sqrtQ (variance (window (data.map Candle.close) 20 j))) = 0
      · have hs0 : sqrtQ (variance (window (data.map Candle.close) 20 j)) = 0 := by
          linarith
        have hmj : (data.map Candle.close).getD j 0 =
            mean (window (data.map Candle.close) 20 j) :=
          bb_cell_degenerate sqrtQ hs _ j hj hj2 hs0
        have hnumj : (data.map Candle.close).getD j 0 -
            (mean (window (data.map Candle.close) 20 j) -
              2 * sqrtQ (variance (window (data.map Candle.close) 20 j))) = 0 := by
          rw [hmj, hs0]
          ring
        constructor <;>
          · simp only [PVal.div]
            rw [hnumj, hz]
            simp [pdivQ]
      · constructor <;>
          · simp only [PVal.div]
            unfold pdivQ
            rw [if_neg hz]
            simp

lemma sqrt_probe_spec : ∀ q : ℚ, sqrt_probe q = 0 ↔ q ≤ 0 := by
  intro q
  by_cases h : q ≤ 0 <;> simp [sqrt_probe, h]

/-- One flat candle at price 5. -/
def c7_candle : Candle :=
  { ts := 0, open_ := 5, high := 5, low := 5, close := 5, volume := 1 }

/-- Twenty identical flat candles: the 20-period close variance is 0, so at
row 19 the Bollinger bands coincide. -/
def c7_data : List Candle := List.replicate 20 c7_candle

lemma c7_closes : c7_data.map Candle.close = List.replicate 20 5 := by
  simp [c7_data, c7_candle]

lemma c7_window : window (List.replicate 20 (5 : ℚ)) 20 19 =
    List.replicate 20 (5 : ℚ) := by
  simp [window]

lemma c7_mean : mean (List.replicate 20 (5 : ℚ)) = 5 := by
  simp [mean, List.sum_replicate]
  norm_num

lemma c7_variance : variance (List.replicate 20 (5 : ℚ)) = 0 := by
  unfold variance
  rw [c7_mean, List.map_replicate, List.sum_replicate]
  norm_num

lemma c7_upper : (bbUpperCol sqrt_probe 20 2 (c7_data.map Candle.close)).getD
    19 PVal.nan = PVal.num 5 := by
  rw [c7_closes]
  unfold bbUpperCol
  rw [getD_range_map, if_pos (by simp), if_pos (by norm_num), c7_window,
    c7_mean, c7_variance]
  norm_num [sqrt_probe]

lemma c7_lower : (bbLowerCol sqrt_probe 20 2 (c7_data.map Candle.close)).getD
    19 PVal.nan = PVal.num 5 := by
  rw [c7_closes]
  unfold bbLowerCol
  rw [getD_range_map, if_pos (by simp), if_pos (by norm_num), c7_window,
    c7_mean, c7_variance]
  norm_num [sqrt_probe]

/-- Witness for C7: on twenty flat candles the bands coincide at row 19,
the `bb_position` cell there is NaN, the row is dropped, and no
`bb_position` cell is infinite. -/
theorem bb_degenerate_band_nan_and_dropped_witness :
    (bbPositionCol sqrt_probe 20 2 (c7_data.map Candle.close)).getD 19
      PVal.nan = PVal.nan ∧
    19 ∉ kept_indices (extract_all_features sqrt_probe c7_data)
      c7_data.length ∧
    ∀ j, (bbPositionCol sqrt_probe 20 2 (c7_data.map Candle.close)).getD j
        PVal.nan ≠ PVal.pinf ∧
      (bbPositionCol sqrt_probe 20 2 (c7_data.map Candle.close)).getD j
        PVal.nan ≠ PVal.ninf :=
  bb_degenerate_band_nan_and_dropped sqrt_probe sqrt_probe_spec c7_data 19 5
    c7_upper c7_lower

end NSE
